import Mathlib

/-!
Verification of `clusterImages.py`, the post-processing script for pixplot
clustering results.  The definitions below are a shallow embedding of the
script's pure logic:

* `get_selected_images` embeds the function of the same name (lines 35-42);
* `get_page_nr`, `get_doc_title`, `get_filename` embed the filename
  parsing/formatting functions (lines 45-60 and 76-82), with the regular
  expression searches spelled out as leftmost character scans;
* `n_pages` embeds the document-length table (line 163);
* `find_gaps` embeds the gap-detection loop over `image_selected`
  (lines 182-209); the inner `while` loop may not terminate, so it is
  modelled with an explicit fuel argument, `none` meaning that the given
  fuel (hence every smaller budget) is insufficient;
* `py_sample` embeds the `iloc[random.sample(range(n), k)]` pattern used at
  the four sampling call sites (lines 216-221, 228-229, 240-241, 278-279),
  with the pseudo-random draw abstracted as an explicit index list.

Missing values (`None` in the dataframes) are modelled with `Option`.
-/

/-- Sequential `Option`-propagating map: models a Python loop over a list
that raises (propagated as `none`) as soon as one element fails. -/
def tryMap {α β : Type} (f : α → Option β) : List α → Option (List β)
  | [] => some []
  | a :: l =>
    match f a, tryMap f l with
    | some b, some bs => some (b :: bs)
    | _, _ => none

/-- One row of the hotspot dataframe: a cluster label and the positional
indices (into the image list) of the images it contains. -/
structure Cluster where
  label : String
  images : List Nat

/-- Embeds `get_selected_images` (lines 35-42).  For each cluster label the
first matching hotspot row is looked up (`values[0]` raises `IndexError`,
modelled by `none`, when no row matches) and its index list is appended to
`image_index`. -/
def collect_indices (hotspot : List Cluster) : List String → Option (List Nat)
  | [] => some []
  | c :: rest =>
    match hotspot.find? (fun h => h.label == c) with
    | none => none
    | some h => (collect_indices hotspot rest).map (fun t => h.images ++ t)

/-- Embeds `imagelist.iloc[image_index]` composed with the index collection:
rows are returned in the order of `image_index` (with repetitions), and an
out-of-range index raises `IndexError` (modelled by `none`). -/
def get_selected_images (hotspot : List Cluster) (imagelist : List String)
    (cluster_of_interest : List String) : Option (List String) :=
  (collect_indices hotspot cluster_of_interest).bind (tryMap imagelist.get?)

/-- Head match of the regular expression `[0-9]{3}.jpg`: three ASCII digits,
one arbitrary character other than a newline (`.`), then the literal `jpg`.
On success, returns `int(group()[:3])`. -/
def matchPageAt : List Char → Option Int
  | d1 :: d2 :: d3 :: a :: j :: q :: g :: _ =>
    if d1.isDigit && d2.isDigit && d3.isDigit && a != '\n' &&
        j == 'j' && q == 'p' && g == 'g' then
      some (((d1.toNat - 48) * 100 + (d2.toNat - 48) * 10 + (d3.toNat - 48) : Nat) : Int)
    else
      none
  | _ => none

/-- Leftmost search for `[0-9]{3}.jpg`, as performed by `re.search`. -/
def findPage : List Char → Option Int
  | [] => none
  | c :: rest =>
    match matchPageAt (c :: rest) with
    | some v => some v
    | none => findPage rest

/-- Embeds `get_page_nr` (lines 45-51): the page number encoded in a
filename, or `none` when the pattern does not occur (the `except` branch). -/
def get_page_nr (filename : String) : Option Int :=
  findPage filename.data

/-- Head match of the regular expression `HGB_[0-9]{1}_[0-9]{3}_[0-9]{3}`:
the matched 13-character substring. -/
def matchTitleAt : List Char → Option String
  | c1 :: c2 :: c3 :: c4 :: d :: c6 :: a1 :: a2 :: a3 :: c10 :: b1 :: b2 :: b3 :: _ =>
    if c1 == 'H' && c2 == 'G' && c3 == 'B' && c4 == '_' && d.isDigit && c6 == '_' &&
        a1.isDigit && a2.isDigit && a3.isDigit && c10 == '_' &&
        b1.isDigit && b2.isDigit && b3.isDigit then
      some (String.mk [c1, c2, c3, c4, d, c6, a1, a2, a3, c10, b1, b2, b3])
    else
      none
  | _ => none

/-- Leftmost search for `HGB_[0-9]{1}_[0-9]{3}_[0-9]{3}`. -/
def findTitle : List Char → Option String
  | [] => none
  | c :: rest =>
    match matchTitleAt (c :: rest) with
    | some t => some t
    | none => findTitle rest

/-- Embeds `get_doc_title` (lines 54-60): the document identifier encoded in
a filename, or `none` when the pattern does not occur. -/
def get_doc_title (filename : String) : Option String :=
  findTitle filename.data

/-- Decimal digits of a natural number, most significant first, written with
explicit fuel so that it is structurally recursive. -/
def natReprAux : Nat → Nat → List Char
  | 0, _ => []
  | fuel + 1, n =>
    if n < 10 then [Nat.digitChar n]
    else natReprAux fuel (n / 10) ++ [Nat.digitChar (n % 10)]

/-- Decimal representation of a natural number (fuel `n + 1` always
suffices, one unit per digit). -/
def natRepr (n : Nat) : List Char :=
  natReprAux (n + 1) n

/-- Embeds the Python format specifier `{page_nr:03}`: the decimal
representation, zero-padded after the sign to a minimum total width of 3. -/
def pad3 (p : Int) : String :=
  let sign : List Char := if p < 0 then ['-'] else []
  let ds : List Char := natRepr p.natAbs
  String.mk (sign ++ List.replicate (3 - (sign.length + ds.length)) '0' ++ ds)

/-- Embeds `get_filename` (lines 76-82), `f'{doc_title}_{page_nr:03}.jpg'`
inside `try/except`.  When `page_nr` is `None`, `{page_nr:03}` raises
`TypeError`, caught by the `except`, so the result is `none`.  When
`doc_title` is `None` but `page_nr` is an integer, no exception is raised:
the f-string interpolates `str(None)`, i.e. the text `None`. -/
def get_filename (doc_title : Option String) (page_nr : Option Int) : Option String :=
  match page_nr with
  | none => none
  | some p =>
    some ((match doc_title with
      | some t => t
      | none => "None") ++ "_" ++ pad3 p ++ ".jpg")

/-- `validTitle t` holds when `t` is exactly a 13-character document
identifier of the shape `HGB_d_ddd_ddd`: the title matcher applied to `t`
itself returns all of `t`. -/
def validTitle (t : String) : Bool :=
  matchTitleAt t.data == some t

/-- One row of the annotated `image_selected` dataframe (the columns the
gap loop reads); missing values are `none`. -/
structure SelRecord where
  doc_title : Option String
  page_nr : Option Int

/-- Python truthiness of `page_nr_last` in the test `if not page_nr_last:`
(line 195): `None` and `0` are falsy. -/
def pyFalsy : Option Int → Bool
  | none => true
  | some v => v == 0

/-- Embeds the inner `while page_nr != page_nr_current:` loop
(lines 205-208), starting at `page_nr = p` and emitting until `page_nr`
equals the target.  When the target is missing or already passed the loop
never terminates; the fuel argument bounds the number of iterations the
model is willing to run, `none` meaning the fuel was exhausted. -/
def whileEmit : Nat → Int → Option Int → Option (List Int)
  | 0, _, _ => none
  | fuel + 1, p, target =>
    if target == some p then some []
    else (whileEmit fuel (p + 1) target).map (fun t => p :: t)

/-- Embeds the `for index, row in group.iterrows():` loop (lines 190-209)
over the sorted page numbers of one document, carrying `page_nr_last`. -/
def walkPages (fuel : Nat) : Option Int → List (Option Int) → Option (List Int)
  | _, [] => some []
  | none, cur :: rest => walkPages fuel cur rest
  | some l, cur :: rest =>
    if l == 0 then walkPages fuel cur rest
    else if cur == some (l + 1) then walkPages fuel cur rest
    else
      match whileEmit fuel (l + 1) cur, walkPages fuel cur rest with
      | some g, some r => some (g ++ r)
      | _, _ => none

/-- Embeds `group.sort_values('page_nr')` restricted to the `page_nr`
column: present values sorted ascending, missing values placed last
(pandas' default `na_position` is `'last'`). -/
def pySortPages (l : List (Option Int)) : List (Option Int) :=
  ((l.filterMap id).insertionSort (· ≤ ·)).map some ++
    List.replicate (l.countP Option.isNone) none

/-- Gap pages emitted for a single document: sort its page numbers, then
walk them with `page_nr_last` initially `None`. -/
def docGaps (fuel : Nat) (pages : List (Option Int)) : Option (List Int) :=
  walkPages fuel none (pySortPages pages)

/-- Embeds `image_selected.groupby('doc_title')`'s group keys: the distinct
present titles, in ascending order (pandas sorts group keys); rows whose
`doc_title` is missing belong to no group. -/
def groupKeys (rs : List SelRecord) : List String :=
  ((rs.filterMap SelRecord.doc_title).dedup).insertionSort (· ≤ ·)

/-- The `page_nr` column of one group of `image_selected.groupby('doc_title')`. -/
def pagesOf (d : String) (rs : List SelRecord) : List (Option Int) :=
  (rs.filter (fun r => r.doc_title == some d)).map SelRecord.page_nr

/-- Embeds the whole gap-detection pass (lines 182-209): the rows of
`image_between_selected` as `(doc_title, page_nr)` pairs, or `none` when
the fuel does not cover the loop (in particular when the inner `while`
loop diverges for every fuel). -/
def find_gaps (fuel : Nat) (rs : List SelRecord) : Option (List (String × Int)) :=
  (tryMap
      (fun d => (docGaps fuel (pagesOf d rs)).map (fun gs => gs.map (fun g => (d, g))))
      (groupKeys rs)).map List.flatten

/-- Embeds `n_pages` (line 163),
`imagelist.groupby('doc_title')['page_nr'].max()`: one entry per distinct
present `doc_title` (keys sorted ascending), whose value is the maximum of
the present page numbers of that document, `none` (pandas `NaN`) when the
document has no present page number.  Rows with missing `doc_title` are
dropped by `groupby`. -/
def pyRecords (imagelist : List String) : List (Option String × Option Int) :=
  imagelist.map (fun f => (get_doc_title f, get_page_nr f))

/-- Maximum of a list of integers, `none` on the empty list (pandas `max`
with `skipna=True` over an all-missing group yields `NaN`). -/
def listMax : List Int → Option Int
  | [] => none
  | x :: xs => some (xs.foldl max x)

def n_pages (imagelist : List String) : List (String × Option Int) :=
  (((pyRecords imagelist).filterMap Prod.fst).dedup.insertionSort (· ≤ ·)).map
    (fun d =>
      (d, listMax (((pyRecords imagelist).filter (fun r => r.fst == some d)).filterMap
        Prod.snd)))

/-- Embeds `population.iloc[random.sample(range(len(population)), k)]`.
`random.sample` raises `ValueError` when `k` exceeds the population size
(modelled by `none`); otherwise it returns `k` distinct indices in the
order they were drawn, abstracted here by the explicit `draw` argument, and
`iloc` projects the rows in exactly that order. -/
def py_sample {α : Type} (population : List α) (k : Nat) (draw : List Nat) : Option (List α) :=
  if k ≤ population.length then tryMap population.get? draw else none

/-- A list of indices that `random.sample(range(n), k)` could return:
`k` distinct indices below `n`, in some draw order. -/
def ValidDraw (n k : Nat) (draw : List Nat) : Prop :=
  draw.length = k ∧ draw.Nodup ∧ ∀ i ∈ draw, i < n

/-- Embeds the guarded sampling site for `image_between_selected`
(lines 216-221): sample 1000 rows only when there are more than 1000,
otherwise use every row. -/
def gap_sample_step {α : Type} (rows : List α) (draw : List Nat) : Option (List α) :=
  if 1000 < rows.length then py_sample rows 1000 draw else some rows

/-- Embeds the unguarded sampling site for `image_selected_sample`
(lines 228-229). -/
def selected_sample_step {α : Type} (rows : List α) (draw : List Nat) : Option (List α) :=
  py_sample rows 1000 draw

/-- Embeds the unguarded sampling site for `image_sample` (lines 240-241). -/
def full_sample_step {α : Type} (rows : List α) (draw : List Nat) : Option (List α) :=
  py_sample rows 1000 draw

/-- Embeds the unguarded sampling site for `user_image_selected_sample`
(lines 278-279). -/
def user_sample_step {α : Type} (rows : List α) (draw : List Nat) : Option (List α) :=
  py_sample rows 1000 draw

/-- The pages the loop of lines 204-208 emits between consecutive selected
pages `l` and `c`: the integers strictly between them, ascending. -/
def gapsBetween (l c : Int) : List Int :=
  (List.range (c - l - 1).toNat).map (fun i : Nat => l + 1 + (i : Int))

/-- The gaps of a whole sorted page sequence: the strictly-between integers
of each consecutive pair, concatenated. -/
def chainGaps : List Int → List Int
  | a :: b :: rest => gapsBetween a b ++ chainGaps (b :: rest)
  | _ => []

/-! ## Generic helper lemmas -/

theorem tryMap_get?_mem {α : Type} (l : List α) :
    ∀ (idxs : List Nat) (sel : List α), tryMap l.get? idxs = some sel →
      ∀ x ∈ sel, x ∈ l := by
  intro idxs
  induction idxs with
  | nil =>
    intro sel h x hx
    simp only [tryMap, Option.some.injEq] at h
    subst h
    simp at hx
  | cons i is ih =>
    intro sel h x hx
    rw [tryMap] at h
    cases hg : l.get? i with
    | none =>
      rw [hg] at h
      cases hti : tryMap l.get? is <;> rw [hti] at h <;> simp at h
    | some b =>
      cases hti : tryMap l.get? is with
      | none => rw [hg, hti] at h; simp at h
      | some bs =>
        rw [hg, hti] at h
        simp only [Option.some.injEq] at h
        subst h
        rcases List.mem_cons.mp hx with rfl | hx'
        · exact List.get?_mem hg
        · exact ih bs hti x hx'

theorem tryMap_get?_eq {α : Type} (l : List α) (dflt : α) :
    ∀ (idxs : List Nat), (∀ i ∈ idxs, i < l.length) →
      tryMap l.get? idxs = some (idxs.map (fun i => l.getD i dflt)) := by
  intro idxs
  induction idxs with
  | nil => intro _; rfl
  | cons i is ih =>
    intro h
    have hi : i < l.length := h i (List.mem_cons_self i is)
    have hne : l.get? i ≠ none := by
      intro hcontra
      rw [List.get?_eq_none] at hcontra
      omega
    cases hg : l.get? i with
    | none => exact absurd hg hne
    | some b =>
      rw [tryMap, hg, ih (fun j hj => h j (List.mem_cons_of_mem i hj))]
      have hb : l.getD i dflt = b := by
        rw [List.getD_eq_getElem?_getD, ← List.get?_eq_getElem?, hg]
        rfl
      show some (b :: is.map (fun j => l.getD j dflt)) =
        some ((i :: is).map (fun j => l.getD j dflt))
      rw [List.map_cons, hb]

/-! ## C1: selection as a subset of the image list -/

/-- Claim C1 counterexample: with two overlapping clusters (both containing
index 0), `get_selected_images` returns the row twice — duplicate indices
are not collapsed, so the output is not duplicate-free as claimed. -/
theorem C1_counterexample :
    get_selected_images [⟨"A", [0]⟩, ⟨"B", [0]⟩] ["x.jpg", "y.jpg"] ["A", "B"] =
      some ["x.jpg", "x.jpg"] ∧
    ¬ (["x.jpg", "x.jpg"] : List String).Nodup := by
  constructor
  · decide
  · decide

/-- Claim C1 (amended): whenever `get_selected_images` succeeds, every
returned filename occurs in the image list (membership subset); duplicate
indices within or across clusters are, however, kept, so the output may
contain duplicate filenames. -/
theorem C1_selection_subset :
    ∀ (hotspot : List Cluster) (imagelist : List String) (coi : List String)
      (sel : List String), get_selected_images hotspot imagelist coi = some sel →
      ∀ x ∈ sel, x ∈ imagelist := by
  intro hotspot imagelist coi sel h x hx
  unfold get_selected_images at h
  cases hc : collect_indices hotspot coi with
  | none => rw [hc] at h; simp at h
  | some idxs =>
    rw [hc] at h
    simp only [Option.some_bind] at h
    exact tryMap_get?_mem imagelist idxs sel h x hx

/-- Witness for C1: the amended theorem applied at a concrete overlapping
selection. -/
theorem C1_witness :
    get_selected_images [⟨"A", [0]⟩, ⟨"B", [0]⟩] ["x.jpg", "y.jpg"] ["A", "B"] =
      some ["x.jpg", "x.jpg"] ∧
    ∀ x ∈ (["x.jpg", "x.jpg"] : List String), x ∈ (["x.jpg", "y.jpg"] : List String) :=
  ⟨by decide,
    C1_selection_subset [⟨"A", [0]⟩, ⟨"B", [0]⟩] ["x.jpg", "y.jpg"] ["A", "B"]
      ["x.jpg", "x.jpg"] (by decide)⟩

/-! ## C2: order of the selection -/

/-- Claim C2 counterexample: for image list `[a,b,c,d]` and cluster indices
`[3,0]`, the selection is `[d,a]` (the `iloc` order of the index list), not
`[a,d]` as the claim states. -/
theorem C2_counterexample :
    get_selected_images [⟨"A", [3, 0]⟩] ["a", "b", "c", "d"] ["A"] = some ["d", "a"] ∧
    (["d", "a"] : List String) ≠ ["a", "d"] := by
  constructor
  · decide
  · decide

/-- Claim C2 (amended): the selection lists the image at each collected
cluster index, in exactly the order of the concatenated cluster index lists
(label iteration order, then each cluster's stored index order) — not in
image-list position order. -/
theorem C2_selection_order :
    ∀ (hotspot : List Cluster) (imagelist : List String) (coi : List String)
      (idxs : List Nat), collect_indices hotspot coi = some idxs →
      (∀ i ∈ idxs, i < imagelist.length) →
      get_selected_images hotspot imagelist coi =
        some (idxs.map (fun i => imagelist.getD i "")) := by
  intro hotspot imagelist coi idxs hc hlt
  unfold get_selected_images
  rw [hc]
  simp only [Option.some_bind]
  exact tryMap_get?_eq imagelist "" idxs hlt

/-- Witness for C2: the amended theorem applied at the claim's own example,
giving selection `[d,a]`. -/
theorem C2_witness :
    collect_indices [⟨"A", [3, 0]⟩] ["A"] = some [3, 0] ∧
    get_selected_images [⟨"A", [3, 0]⟩] ["a", "b", "c", "d"] ["A"] =
      some (([3, 0] : List Nat).map (fun i => (["a", "b", "c", "d"] : List String).getD i "")) :=
  ⟨by decide,
    C2_selection_order [⟨"A", [3, 0]⟩] ["a", "b", "c", "d"] ["A"] [3, 0]
      (by decide) (by decide)⟩

/-! ## C4: behaviour of the sampling sites when k >= population size -/

/-- Claim C4 counterexample: at the `image_selected_sample` call site
(line 229) a population of one image with `k = 1000` makes
`random.sample(range(1), 1000)` raise `ValueError` (modelled by `none`)
instead of returning every element. -/
theorem C4_counterexample :
    selected_sample_step ["a.jpg"] ([] : List Nat) = none ∧
    (none : Option (List String)) ≠ some ["a.jpg"] := by
  constructor
  · decide
  · decide

/-- Claim C4 (amended): only the gap-sample site is guarded — it returns the
whole population, order preserved, whenever the population has at most 1000
rows.  The selection-sample, full-image-list-sample and user-hotspot-sample
sites call `random.sample(range(n), 1000)` unguarded and fail (raise
`ValueError`) whenever the population has fewer than 1000 rows. -/
theorem C4_sampling_sites :
    (∀ (rows : List String) (draw : List Nat), rows.length ≤ 1000 →
      gap_sample_step rows draw = some rows) ∧
    (∀ (rows : List String) (draw : List Nat), rows.length < 1000 →
      selected_sample_step rows draw = none) ∧
    (∀ (rows : List String) (draw : List Nat), rows.length < 1000 →
      full_sample_step rows draw = none) ∧
    (∀ (rows : List String) (draw : List Nat), rows.length < 1000 →
      user_sample_step rows draw = none) := by
  refine ⟨?_, ?_, ?_, ?_⟩
  · intro rows draw h
    unfold gap_sample_step
    rw [if_neg (by omega)]
  · intro rows draw h
    unfold selected_sample_step py_sample
    rw [if_neg (by omega)]
  · intro rows draw h
    unfold full_sample_step py_sample
    rw [if_neg (by omega)]
  · intro rows draw h
    unfold user_sample_step py_sample
    rw [if_neg (by omega)]

/-- Witness for C4: all four call-site behaviours at a one-element
population. -/
theorem C4_witness :
    (["a.jpg"] : List String).length ≤ 1000 ∧
    gap_sample_step ["a.jpg"] ([] : List Nat) = some ["a.jpg"] ∧
    selected_sample_step ["a.jpg"] ([] : List Nat) = none ∧
    full_sample_step ["a.jpg"] ([] : List Nat) = none ∧
    user_sample_step ["a.jpg"] ([] : List Nat) = none :=
  ⟨by decide,
    C4_sampling_sites.1 ["a.jpg"] [] (by decide),
    C4_sampling_sites.2.1 ["a.jpg"] [] (by decide),
    C4_sampling_sites.2.2.1 ["a.jpg"] [] (by decide),
    C4_sampling_sites.2.2.2 ["a.jpg"] [] (by decide)⟩

/-! ## C6: get_filename on missing inputs -/

/-- Claim C6 counterexample: with a missing `doc_title` and a valid page
number, `get_filename` does not return `none`: the f-string interpolates
the text `None`, yielding the malformed name `None_007.jpg`. -/
theorem C6_counterexample :
    get_filename none (some 7) = some "None_007.jpg" := by decide

/-- Claim C6 (amended): `get_filename` returns `none` whenever `page_nr` is
missing (the `{page_nr:03}` format raises and is caught); but when only
`doc_title` is missing it returns a malformed filename embedding the text
`None`. -/
theorem C6_missing_inputs :
    (∀ t : Option String, get_filename t none = none) ∧
    (∀ p : Int, get_filename none (some p) = some ("None_" ++ pad3 p ++ ".jpg")) := by
  constructor
  · intro t; rfl
  · intro p
    show some ("None" ++ "_" ++ pad3 p ++ ".jpg") = some ("None_" ++ pad3 p ++ ".jpg")
    rw [show ("None" ++ "_" : String) = "None_" from by decide]

/-! ## C8: order of the sampled subset -/

/-- Claim C8 counterexample: population `[a,b,c]`, `k = 2` and the (legal)
draw `[2,0]` give the sample `[c,a]` — the randomized draw order, which is
not the population's original relative order (`a` before `c`). -/
theorem C8_counterexample :
    ValidDraw 3 2 [2, 0] ∧
    py_sample ["a", "b", "c"] 2 [2, 0] = some ["c", "a"] ∧
    (["c", "a"] : List String) ≠ ["a", "c"] := by
  refine ⟨?_, by decide, by decide⟩
  unfold ValidDraw
  refine ⟨by decide, by decide, by decide⟩

/-- Claim C8 (amended): the sample's element order is the order in which the
indices were drawn — position `j` of the sample is the population row at
`draw[j]` — not the population's original relative order. -/
theorem C8_sample_order :
    ∀ (population : List String) (k : Nat) (draw : List Nat),
      k ≤ population.length → (∀ i ∈ draw, i < population.length) →
      py_sample population k draw =
        some (draw.map (fun i => population.getD i "")) := by
  intro population k draw hk hlt
  unfold py_sample
  rw [if_pos hk]
  exact tryMap_get?_eq population "" draw hlt

/-- Witness for C8: the amended theorem at the counterexample's input,
giving the draw-ordered sample `[c,a]`. -/
theorem C8_witness :
    2 ≤ (["a", "b", "c"] : List String).length ∧
    py_sample ["a", "b", "c"] 2 [2, 0] =
      some (([2, 0] : List Nat).map (fun i => (["a", "b", "c"] : List String).getD i "")) :=
  ⟨by decide, C8_sample_order ["a", "b", "c"] 2 [2, 0] (by decide) (by decide)⟩

/-! ## Gap-detection helper lemmas -/

theorem whileEmit_none_target : ∀ (fuel : Nat) (p : Int), whileEmit fuel p none = none := by
  intro fuel
  induction fuel with
  | zero => intro p; rfl
  | succ f ih =>
    intro p
    rw [whileEmit]
    rw [if_neg (by simp), ih]
    rfl

theorem whileEmit_spec : ∀ (k : Nat) (fuel : Nat) (l : Int), k + 1 ≤ fuel →
    whileEmit fuel l (some (l + (k : Int))) =
      some ((List.range k).map (fun i : Nat => l + (i : Int))) := by
  intro k
  induction k with
  | zero =>
    intro fuel l hf
    obtain ⟨f, rfl⟩ : ∃ f, fuel = f + 1 := ⟨fuel - 1, by omega⟩
    rw [whileEmit, if_pos (by simp)]
    rfl
  | succ k ih =>
    intro fuel l hf
    obtain ⟨f, rfl⟩ : ∃ f, fuel = f + 1 := ⟨fuel - 1, by omega⟩
    rw [whileEmit, if_neg (by simp; omega)]
    rw [show l + ((k + 1 : Nat) : Int) = (l + 1) + (k : Int) from by push_cast; ring]
    rw [ih f (l + 1) (by omega)]
    simp only [Option.map_some']
    congr 1
    rw [List.range_succ_eq_map]
    simp only [List.map_cons, List.map_map, Nat.cast_zero, add_zero]
    congr 1
    apply List.map_congr_left
    intro a _
    simp only [Function.comp_apply, Nat.succ_eq_add_one]
    push_cast
    ring

theorem walkPages_some_zero (fuel : Nat) :
    ∀ L : List (Option Int), walkPages fuel (some 0) L = walkPages fuel none L := by
  intro L
  cases L with
  | nil => rfl
  | cons c r => simp [walkPages]

theorem sorted_le_of_lt {l : List Int} (h : List.Sorted (· < ·) l) :
    List.Sorted (· ≤ ·) l :=
  List.Pairwise.imp (fun hab => le_of_lt hab) h

theorem insertionSort_eq_of_perm {l l' : List Int} (h : l.Perm l') :
    l.insertionSort (· ≤ ·) = l'.insertionSort (· ≤ ·) :=
  List.eq_of_perm_of_sorted
    ((List.perm_insertionSort (· ≤ ·) l).trans
      (h.trans (List.perm_insertionSort (· ≤ ·) l').symm))
    (List.sorted_insertionSort (· ≤ ·) l) (List.sorted_insertionSort (· ≤ ·) l')

theorem orderedInsert_zero (l : List Int) (h : ∀ x ∈ l, 0 ≤ x) :
    List.orderedInsert (· ≤ ·) 0 l = 0 :: l := by
  cases l with
  | nil => rfl
  | cons b t =>
    rw [List.orderedInsert, if_pos (h b (List.mem_cons_self b t))]

theorem filterMap_id_map_some (l : List Int) : (l.map some).filterMap id = l := by
  induction l with
  | nil => rfl
  | cons a t ih => simp [ih]

theorem countP_isNone_map_some (l : List Int) : (l.map some).countP Option.isNone = 0 := by
  rw [List.countP_eq_zero]
  intro a ha
  rcases List.mem_map.mp ha with ⟨x, _, rfl⟩
  simp

theorem pySortPages_map_some (l : List Int) :
    pySortPages (l.map some) = (l.insertionSort (· ≤ ·)).map some := by
  unfold pySortPages
  rw [filterMap_id_map_some, countP_isNone_map_some]
  simp

theorem walkPages_cons_chain (fuel : Nat) :
    ∀ (rest : List Int) (a : Int), 0 < a →
      List.Sorted (· < ·) (a :: rest) →
      (∀ x ∈ a :: rest, x < (fuel : Int)) →
      walkPages fuel (some a) (rest.map some) = some (chainGaps (a :: rest)) := by
  intro rest
  induction rest with
  | nil =>
    intro a _ _ _
    rfl
  | cons b rest ih =>
    intro a ha hs hf
    have hab : a < b := (List.sorted_cons.mp hs).1 b (List.mem_cons_self b rest)
    have hsb : List.Sorted (· < ·) (b :: rest) := (List.sorted_cons.mp hs).2
    have hfb : ∀ x ∈ b :: rest, x < (fuel : Int) :=
      fun x hx => hf x (List.mem_cons_of_mem a hx)
    simp only [List.map_cons, walkPages]
    rw [if_neg (by simp; omega)]
    by_cases hb1 : b = a + 1
    · rw [if_pos (by simp [hb1])]
      rw [ih b (by omega) hsb hfb]
      have hg : gapsBetween a b = [] := by
        unfold gapsBetween
        rw [show ((b - a - 1).toNat) = 0 from by omega]
        rfl
      rw [chainGaps, hg, List.nil_append]
    · rw [if_neg (by simp; omega)]
      have hfuel : (b - a - 1).toNat + 1 ≤ fuel := by
        have hbf : b < (fuel : Int) :=
          hf b (List.mem_cons_of_mem a (List.mem_cons_self b rest))
        omega
      have hw : whileEmit fuel (a + 1) (some b) = some (gapsBetween a b) := by
        have hsp := whileEmit_spec (b - a - 1).toNat fuel (a + 1) hfuel
        rw [show (a + 1) + (((b - a - 1).toNat : Nat) : Int) = b from by omega] at hsp
        rw [hsp]
        rfl
      rw [hw, ih b (by omega) hsb hfb]
      rfl

theorem walkPages_none_sorted (fuel : Nat) (ps : List Int)
    (hs : List.Sorted (· < ·) ps) (hb : ∀ x ∈ ps, 0 < x ∧ x < (fuel : Int)) :
    walkPages fuel none (ps.map some) = some (chainGaps ps) := by
  cases ps with
  | nil => rfl
  | cons a rest =>
    simp only [List.map_cons, walkPages]
    exact walkPages_cons_chain fuel rest a (hb a (List.mem_cons_self a rest)).1 hs
      (fun x hx => (hb x hx).2)

theorem docGaps_perm_sorted (fuel : Nat) (pages : List (Option Int)) (ps : List Int)
    (hperm : pages.Perm (ps.map some))
    (hs : List.Sorted (· < ·) ps) (hb : ∀ x ∈ ps, 0 < x ∧ x < (fuel : Int)) :
    docGaps fuel pages = some (chainGaps ps) := by
  unfold docGaps pySortPages
  have hfm : (pages.filterMap id).Perm ps := by
    have h := hperm.filterMap id
    rw [filterMap_id_map_some] at h
    exact h
  have hsort : (pages.filterMap id).insertionSort (· ≤ ·) = ps := by
    rw [insertionSort_eq_of_perm hfm, (sorted_le_of_lt hs).insertionSort_eq]
  have hcount : pages.countP Option.isNone = 0 := by
    rw [hperm.countP_eq Option.isNone]
    exact countP_isNone_map_some ps
  rw [hsort, hcount]
  simp only [List.replicate, List.append_nil]
  exact walkPages_none_sorted fuel ps hs hb

theorem filterMap_title_const (d : String) :
    ∀ (rs : List SelRecord), (∀ r ∈ rs, r.doc_title = some d) →
      rs.filterMap SelRecord.doc_title = List.replicate rs.length d := by
  intro rs
  induction rs with
  | nil => intro _; rfl
  | cons r t ih =>
    intro h
    rw [List.filterMap_cons, h r (List.mem_cons_self r t),
      ih (fun x hx => h x (List.mem_cons_of_mem r hx))]
    rfl

theorem dedup_replicate (d : String) :
    ∀ (n : Nat), (List.replicate (n + 1) d).dedup = [d] := by
  intro n
  induction n with
  | zero => rfl
  | succ n ih =>
    rw [List.replicate_succ, List.dedup_cons_of_mem (by simp), ih]

theorem groupKeys_const (rs : List SelRecord) (d : String) (hne : rs ≠ [])
    (h : ∀ r ∈ rs, r.doc_title = some d) : groupKeys rs = [d] := by
  unfold groupKeys
  rw [filterMap_title_const d rs h]
  obtain ⟨r0, rs', rfl⟩ := List.exists_cons_of_ne_nil hne
  rw [List.length_cons, dedup_replicate]
  simp

theorem pagesOf_const (rs : List SelRecord) (d : String)
    (h : ∀ r ∈ rs, r.doc_title = some d) :
    pagesOf d rs = rs.map SelRecord.page_nr := by
  unfold pagesOf
  rw [List.filter_eq_self.mpr]
  intro r hr
  rw [h r hr]
  simp

theorem find_gaps_single (fuel : Nat) (rs : List SelRecord) (d : String) (ps : List Int)
    (hne : rs ≠ []) (hall : ∀ r ∈ rs, r.doc_title = some d)
    (hperm : (rs.map SelRecord.page_nr).Perm (ps.map some))
    (hs : List.Sorted (· < ·) ps) (hb : ∀ x ∈ ps, 0 < x ∧ x < (fuel : Int)) :
    find_gaps fuel rs = some ((chainGaps ps).map (fun g => (d, g))) := by
  unfold find_gaps
  rw [groupKeys_const rs d hne hall]
  simp only [tryMap]
  rw [pagesOf_const rs d hall,
    docGaps_perm_sorted fuel (rs.map SelRecord.page_nr) ps hperm hs hb]
  simp

/-! ## C3: gap detection between selected pages -/

/-- Claim C3: for a single-document selection set, the gap loop yields
exactly the integers strictly between consecutive selected pages, in
ascending order: pages {1,2,5} give gaps [3,4]; {1,2,3} give none; {5}
gives none; and, in general, for any sorted list of distinct positive
selected pages, the emitted gaps are the concatenation over consecutive
pairs of the open interval between them (characterised by `gapsBetween`,
whose members are exactly the strictly-between integers, listed
ascending). -/
theorem C3_gap_detection :
    (∀ (rs : List SelRecord) (d : String) (fuel : Nat), rs ≠ [] →
        (∀ r ∈ rs, r.doc_title = some d) →
        (rs.map SelRecord.page_nr).Perm [some 1, some 2, some 5] → 6 ≤ fuel →
        find_gaps fuel rs = some [(d, 3), (d, 4)]) ∧
    (∀ (rs : List SelRecord) (d : String) (fuel : Nat), rs ≠ [] →
        (∀ r ∈ rs, r.doc_title = some d) →
        (rs.map SelRecord.page_nr).Perm [some 1, some 2, some 3] → 6 ≤ fuel →
        find_gaps fuel rs = some []) ∧
    (∀ (rs : List SelRecord) (d : String) (fuel : Nat), rs ≠ [] →
        (∀ r ∈ rs, r.doc_title = some d) →
        (rs.map SelRecord.page_nr).Perm [some 5] → 6 ≤ fuel →
        find_gaps fuel rs = some []) ∧
    (∀ (rs : List SelRecord) (d : String) (ps : List Int) (fuel : Nat), rs ≠ [] →
        (∀ r ∈ rs, r.doc_title = some d) →
        (rs.map SelRecord.page_nr).Perm (ps.map some) →
        List.Sorted (· < ·) ps → (∀ x ∈ ps, 0 < x ∧ x < (fuel : Int)) →
        find_gaps fuel rs = some ((chainGaps ps).map (fun g => (d, g)))) ∧
    (∀ l c g : Int, g ∈ gapsBetween l c ↔ l < g ∧ g < c) ∧
    (∀ l c : Int, List.Sorted (· < ·) (gapsBetween l c)) := by
  have hbounds : ∀ (ps : List Int) (fuel : Nat), 6 ≤ fuel → (∀ x ∈ ps, 0 < x ∧ x < 6) →
      ∀ x ∈ ps, 0 < x ∧ x < (fuel : Int) := by
    intro ps fuel hf h x hx
    have h6 : (6 : Int) ≤ (fuel : Int) := by exact_mod_cast hf
    have := h x hx
    omega
  refine ⟨?_, ?_, ?_, ?_, ?_, ?_⟩
  · intro rs d fuel hne hall hperm hf
    rw [find_gaps_single fuel rs d [1, 2, 5] hne hall hperm (by decide)
      (hbounds [1, 2, 5] fuel hf (by decide))]
    rfl
  · intro rs d fuel hne hall hperm hf
    rw [find_gaps_single fuel rs d [1, 2, 3] hne hall hperm (by decide)
      (hbounds [1, 2, 3] fuel hf (by decide))]
    rfl
  · intro rs d fuel hne hall hperm hf
    rw [find_gaps_single fuel rs d [5] hne hall hperm (by decide)
      (hbounds [5] fuel hf (by decide))]
    rfl
  · intro rs d ps fuel hne hall hperm hs hb
    exact find_gaps_single fuel rs d ps hne hall hperm hs hb
  · intro l c g
    unfold gapsBetween
    simp only [List.mem_map, List.mem_range]
    constructor
    · rintro ⟨i, hi, rfl⟩
      omega
    · rintro ⟨h1, h2⟩
      exact ⟨(g - l - 1).toNat, by omega, by omega⟩
  · intro l c
    unfold gapsBetween
    exact (List.pairwise_lt_range _).map _ (fun x y hxy => by omega)

/-- Witness for C3: the first conjunct applied to a concrete one-document
selection set with pages {1,2,5}, yielding gap records for pages 3 and 4. -/
theorem C3_witness :
    ([⟨some "D", some 1⟩, ⟨some "D", some 2⟩, ⟨some "D", some 5⟩] : List SelRecord) ≠ [] ∧
    find_gaps 6 [⟨some "D", some 1⟩, ⟨some "D", some 2⟩, ⟨some "D", some 5⟩] =
      some [("D", 3), ("D", 4)] :=
  ⟨by simp,
    C3_gap_detection.1 [⟨some "D", some 1⟩, ⟨some "D", some 2⟩, ⟨some "D", some 5⟩] "D" 6
      (by simp) (by decide) (by decide) (by decide)⟩

/-! ## C5: records with missing page numbers in the gap loop -/

/-- Claim C5 is a code bug: the grouping drops records with a missing
`doc_title` (pandas `groupby`), but does NOT drop records with a missing
`page_nr`.  Such a record sorts last in its document, and when a valid page
precedes it the inner `while` loop's condition `page_nr != page_nr_current`
compares an integer to `None`, which is always true, so the loop never
terminates.  In the fuel model: for every fuel the run is cut off, i.e.
`find_gaps` is `none` for every budget — the concrete witness of
non-termination on a selection set with pages [5, missing]. -/
theorem C5_missing_page_nontermination :
    ∀ fuel : Nat,
      find_gaps fuel [⟨some "HGB_1_001_002", some 5⟩, ⟨some "HGB_1_001_002", none⟩] =
        none := by
  intro fuel
  have hd : docGaps fuel [some 5, none] = none := by
    unfold docGaps
    rw [show pySortPages [some 5, none] = [some 5, none] from by decide]
    simp only [walkPages]
    rw [if_neg (by decide), if_neg (by decide), whileEmit_none_target]
  unfold find_gaps
  rw [show groupKeys [⟨some "HGB_1_001_002", some 5⟩, ⟨some "HGB_1_001_002", none⟩] =
    ["HGB_1_001_002"] from by decide]
  simp only [tryMap]
  rw [show pagesOf "HGB_1_001_002"
      [⟨some "HGB_1_001_002", some 5⟩, ⟨some "HGB_1_001_002", none⟩] =
    [some 5, none] from by decide]
  rw [hd]
  rfl

/-! ## C10: a smallest selected page of 0 acts as the uninitialised sentinel -/

/-- Claim C10: when a document's smallest selected page number is 0, the
test `if not page_nr_last:` treats the retained 0 as falsy ("first
iteration"), so no gaps are emitted between page 0 and the next selected
page, and gap detection among the remaining pages is exactly as if page 0
were absent: the per-document gap output on `0 :: qs` equals the output on
`qs` alone. -/
theorem C10_page_zero_sentinel :
    ∀ (ps qs : List Int) (fuel : Nat), ps.Perm (0 :: qs) → (∀ x ∈ qs, 0 < x) →
      docGaps fuel (ps.map some) = docGaps fuel (qs.map some) := by
  intro ps qs fuel hperm hpos
  unfold docGaps
  rw [pySortPages_map_some, pySortPages_map_some]
  have hsort : ps.insertionSort (· ≤ ·) = 0 :: qs.insertionSort (· ≤ ·) := by
    rw [insertionSort_eq_of_perm hperm, List.insertionSort]
    apply orderedInsert_zero
    intro x hx
    have hxq : x ∈ qs := (List.perm_insertionSort (· ≤ ·) qs).mem_iff.mp hx
    exact le_of_lt (hpos x hxq)
  rw [hsort]
  simp only [List.map_cons, walkPages]
  exact walkPages_some_zero fuel _

/-- Witness for C10: pages {0,5,9} give the same gaps as pages {5,9}. -/
theorem C10_witness :
    ([5, 0, 9] : List Int).Perm (0 :: [5, 9]) ∧
    docGaps 20 (([5, 0, 9] : List Int).map some) =
      docGaps 20 (([5, 9] : List Int).map some) :=
  ⟨by decide, C10_page_zero_sentinel [5, 0, 9] [5, 9] 20 (by decide) (by decide)⟩

/-! ## C7: documents with no valid page number in the length table -/

/-- Claim C7 counterexample: an image list with a single record whose
`doc_title` parses but whose `page_nr` does not.  The document is NOT
omitted from the length table: `groupby(...).max()` keeps the group and
gives it a missing (`NaN`) maximum, so the table contains an entry
`("HGB_1_001_002", none)`. -/
theorem C7_counterexample :
    n_pages ["HGB_1_001_002.png"] = [("HGB_1_001_002", none)] ∧
    get_doc_title "HGB_1_001_002.png" = some "HGB_1_001_002" ∧
    get_page_nr "HGB_1_001_002.png" = none := by
  refine ⟨by decide, by decide, by decide⟩

/-- Claim C7 (amended): records with a missing `page_nr` are indeed excluded
from the per-document maximum, but a document all of whose records have a
missing page number still appears in the table — with a missing (`NaN`)
value rather than being omitted. -/
theorem C7_all_missing_pages_entry :
    ∀ (imagelist : List String) (d : String),
      (∃ f ∈ imagelist, get_doc_title f = some d) →
      (∀ f ∈ imagelist, get_doc_title f = some d → get_page_nr f = none) →
      (d, (none : Option Int)) ∈ n_pages imagelist := by
  intro imagelist d hex hall
  obtain ⟨f0, hf0, ht0⟩ := hex
  unfold n_pages
  have hmem : d ∈ (pyRecords imagelist).filterMap Prod.fst := by
    rw [List.mem_filterMap]
    refine ⟨(get_doc_title f0, get_page_nr f0), ?_, ht0⟩
    unfold pyRecords
    exact List.mem_map.mpr ⟨f0, hf0, rfl⟩
  have hmem2 :
      d ∈ ((pyRecords imagelist).filterMap Prod.fst).dedup.insertionSort (· ≤ ·) := by
    rw [(List.perm_insertionSort (· ≤ ·) _).mem_iff, List.mem_dedup]
    exact hmem
  have hval :
      ((pyRecords imagelist).filter (fun r => r.fst == some d)).filterMap Prod.snd = [] := by
    rw [List.filterMap_eq_nil_iff]
    intro a ha
    rcases List.mem_filter.mp ha with ⟨hmem', hfst⟩
    unfold pyRecords at hmem'
    rcases List.mem_map.mp hmem' with ⟨f, hf, rfl⟩
    exact hall f hf (by simpa using hfst)
  refine List.mem_map.mpr ⟨d, hmem2, ?_⟩
  rw [hval]
  rfl

/-- Witness for C7: the amended theorem at the counterexample's image list. -/
theorem C7_witness :
    (∃ f ∈ (["HGB_1_001_002.png"] : List String),
      get_doc_title f = some "HGB_1_001_002") ∧
    ("HGB_1_001_002", (none : Option Int)) ∈ n_pages ["HGB_1_001_002.png"] :=
  ⟨by decide, C7_all_missing_pages_entry ["HGB_1_001_002.png"] "HGB_1_001_002"
    (by decide) (by decide)⟩

/-! ## C9: round-trip of filename formatting and parsing -/


theorem digitChar_isDigit {d : Nat} (h : d < 10) : (Nat.digitChar d).isDigit = true := by
  interval_cases d <;> decide

theorem digitChar_toNat {d : Nat} (h : d < 10) : (Nat.digitChar d).toNat = 48 + d := by
  interval_cases d <;> decide

theorem isDigit_beq_j {c : Char} (h : c.isDigit = true) : (c == 'j') = false := by
  cases hc : c == 'j' with
  | false => rfl
  | true =>
    have hcj : c = 'j' := beq_iff_eq.mp hc
    rw [hcj] at h
    exact absurd h (by decide)

theorem natReprAux_d1 {m : Nat} (fuel : Nat) (h : m < 10) (hf : 1 ≤ fuel) :
    natReprAux fuel m = [Nat.digitChar m] := by
  obtain ⟨f, rfl⟩ : ∃ f, fuel = f + 1 := ⟨fuel - 1, by omega⟩
  rw [natReprAux, if_pos h]

theorem natReprAux_d2 {m : Nat} (fuel : Nat) (h1 : 10 ≤ m) (h2 : m < 100) (hf : 2 ≤ fuel) :
    natReprAux fuel m = [Nat.digitChar (m / 10), Nat.digitChar (m % 10)] := by
  obtain ⟨f, rfl⟩ : ∃ f, fuel = f + 1 := ⟨fuel - 1, by omega⟩
  rw [natReprAux, if_neg (by omega), natReprAux_d1 f (by omega) (by omega)]
  rfl

theorem natReprAux_d3 {m : Nat} (fuel : Nat) (h1 : 100 ≤ m) (h2 : m < 1000) (hf : 3 ≤ fuel) :
    natReprAux fuel m =
      [Nat.digitChar (m / 100), Nat.digitChar (m / 10 % 10), Nat.digitChar (m % 10)] := by
  obtain ⟨f, rfl⟩ : ∃ f, fuel = f + 1 := ⟨fuel - 1, by omega⟩
  rw [natReprAux, if_neg (by omega), natReprAux_d2 f (by omega) (by omega) (by omega)]
  have : m / 10 / 10 = m / 100 := by omega
  rw [this]
  rfl

theorem pad3_digits {p : Int} (h1 : 1 ≤ p) (h2 : p ≤ 999) :
    pad3 p = String.mk [Nat.digitChar (p.toNat / 100), Nat.digitChar (p.toNat / 10 % 10),
      Nat.digitChar (p.toNat % 10)] := by
  unfold pad3 natRepr
  rw [if_neg (by omega)]
  have hab : p.natAbs = p.toNat := by omega
  rw [hab]
  rcases Nat.lt_or_ge p.toNat 10 with h | h
  · rw [natReprAux_d1 _ h (by omega)]
    have e1 : p.toNat / 100 = 0 := by omega
    have e2 : p.toNat / 10 % 10 = 0 := by omega
    have e3 : p.toNat % 10 = p.toNat := by omega
    rw [e1, e2, e3]
    rfl
  rcases Nat.lt_or_ge p.toNat 100 with h' | h'
  · rw [natReprAux_d2 _ h h' (by omega)]
    have e1 : p.toNat / 100 = 0 := by omega
    have e2 : p.toNat / 10 % 10 = p.toNat / 10 := by omega
    rw [e1, e2]
    rfl
  · rw [natReprAux_d3 _ h' (by omega) (by omega)]
    rfl

example : pad3 7 = String.mk ['0', '0', '7'] := by
  rw [pad3_digits (by omega) (by omega)]
  rfl

theorem matchTitleAt_shape {l : List Char} {t : String} (h : matchTitleAt l = some t) :
    ∃ d a1 a2 a3 b1 b2 b3 tail,
      l = 'H' :: 'G' :: 'B' :: '_' :: d :: '_' :: a1 :: a2 :: a3 :: '_' ::
        b1 :: b2 :: b3 :: tail ∧
      d.isDigit = true ∧ a1.isDigit = true ∧ a2.isDigit = true ∧ a3.isDigit = true ∧
      b1.isDigit = true ∧ b2.isDigit = true ∧ b3.isDigit = true ∧
      t = String.mk ['H', 'G', 'B', '_', d, '_', a1, a2, a3, '_', b1, b2, b3] := by
  rcases l with _ | ⟨c1, l⟩
  · exact Option.noConfusion h
  rcases l with _ | ⟨c2, l⟩
  · exact Option.noConfusion h
  rcases l with _ | ⟨c3, l⟩
  · exact Option.noConfusion h
  rcases l with _ | ⟨c4, l⟩
  · exact Option.noConfusion h
  rcases l with _ | ⟨d, l⟩
  · exact Option.noConfusion h
  rcases l with _ | ⟨c6, l⟩
  · exact Option.noConfusion h
  rcases l with _ | ⟨a1, l⟩
  · exact Option.noConfusion h
  rcases l with _ | ⟨a2, l⟩
  · exact Option.noConfusion h
  rcases l with _ | ⟨a3, l⟩
  · exact Option.noConfusion h
  rcases l with _ | ⟨c10, l⟩
  · exact Option.noConfusion h
  rcases l with _ | ⟨b1, l⟩
  · exact Option.noConfusion h
  rcases l with _ | ⟨b2, l⟩
  · exact Option.noConfusion h
  rcases l with _ | ⟨b3, l⟩
  · exact Option.noConfusion h
  rw [matchTitleAt] at h
  split_ifs at h with hg
  · simp only [Bool.and_eq_true, beq_iff_eq] at hg
    obtain ⟨⟨⟨⟨⟨⟨⟨⟨⟨⟨⟨⟨h1, h2⟩, h3⟩, h4⟩, hd⟩, h6⟩, ha1⟩, ha2⟩, ha3⟩, h10⟩, hb1⟩, hb2⟩, hb3⟩ := hg
    subst h1; subst h2; subst h3; subst h4; subst h6; subst h10
    exact ⟨d, a1, a2, a3, b1, b2, b3, l, rfl, hd, ha1, ha2, ha3, hb1, hb2, hb3,
      (Option.some.inj h).symm⟩

theorem string_data_append (s r : String) : (s ++ r).data = s.data ++ r.data := by
  cases s
  cases r
  rfl

/-- Claim C9: for every valid document title (shape `HGB_d_ddd_ddd`) and
every page number in [1,999], parsing inverts formatting:
`get_doc_title (get_filename t p) = t` and
`get_page_nr (get_filename t p) = p` (stated on the produced filename,
which `get_filename` wraps in `some`). -/
theorem C9_roundtrip (t : String) (p : Int) (hv : validTitle t = true)
    (h1 : 1 ≤ p) (h2 : p ≤ 999) :
    get_filename (some t) (some p) = some (t ++ "_" ++ pad3 p ++ ".jpg") ∧
    get_doc_title (t ++ "_" ++ pad3 p ++ ".jpg") = some t ∧
    get_page_nr (t ++ "_" ++ pad3 p ++ ".jpg") = some p := by
  have hmt : matchTitleAt t.data = some t := beq_iff_eq.mp hv
  obtain ⟨d, a1, a2, a3, b1, b2, b3, tail, hdata, hd, ha1, ha2, ha3, hb1, hb2, hb3, ht⟩ :=
    matchTitleAt_shape hmt
  have h13 : t.data = ['H', 'G', 'B', '_', d, '_', a1, a2, a3, '_', b1, b2, b3] := by
    rw [ht]
  have hpad := pad3_digits h1 h2
  have hn0 : 1 ≤ p.toNat := by omega
  have hn9 : p.toNat ≤ 999 := by omega
  have hfdata : (t ++ "_" ++ pad3 p ++ ".jpg").data =
      'H' :: 'G' :: 'B' :: '_' :: d :: '_' :: a1 :: a2 :: a3 :: '_' :: b1 :: b2 :: b3 ::
      '_' :: Nat.digitChar (p.toNat / 100) :: Nat.digitChar (p.toNat / 10 % 10) ::
      Nat.digitChar (p.toNat % 10) :: '.' :: 'j' :: 'p' :: 'g' :: [] := by
    rw [string_data_append, string_data_append, string_data_append, h13, hpad]
    rfl
  refine ⟨rfl, ?_, ?_⟩
  · unfold get_doc_title
    rw [hfdata, findTitle, matchTitleAt,
      if_pos (by simp [hd, ha1, ha2, ha3, hb1, hb2, hb3]), ht]
  · unfold get_page_nr
    rw [hfdata]
    have hq1 : (Nat.digitChar (p.toNat / 100)).isDigit = true := digitChar_isDigit (by omega)
    have hq2 : (Nat.digitChar (p.toNat / 10 % 10)).isDigit = true :=
      digitChar_isDigit (by omega)
    have hq3 : (Nat.digitChar (p.toNat % 10)).isDigit = true := digitChar_isDigit (by omega)
    have hb1j := isDigit_beq_j hb1
    have hq1j := isDigit_beq_j hq1
    have cH : ('H' : Char).isDigit = false := by decide
    have cG : ('G' : Char).isDigit = false := by decide
    have cB : ('B' : Char).isDigit = false := by decide
    have cU : ('_' : Char).isDigit = false := by decide
    have cne : (('_' : Char) != '\n') = true := by decide
    have cne2 : (('.' : Char) != '\n') = true := by decide
    simp only [findPage, matchPageAt, hd, ha1, ha2, ha3, hb1, hb2, hb3, hq1, hq2, hq3,
      hb1j, hq1j, cH, cG, cB, cU, cne, cne2, Bool.false_and, Bool.true_and,
      Bool.and_false, Bool.and_true, beq_self_eq_true, if_false, if_true,
      Bool.false_eq_true, ite_false, ite_true]
    have t1 : (Nat.digitChar (p.toNat / 100)).toNat = 48 + p.toNat / 100 :=
      digitChar_toNat (by omega)
    have t2 : (Nat.digitChar (p.toNat / 10 % 10)).toNat = 48 + p.toNat / 10 % 10 :=
      digitChar_toNat (by omega)
    have t3 : (Nat.digitChar (p.toNat % 10)).toNat = 48 + p.toNat % 10 :=
      digitChar_toNat (by omega)
    rw [t1, t2, t3]
    simp only [Option.some.injEq]
    omega

/-- Witness for C9: the round trip at title `HGB_1_001_002`, page 7. -/
theorem C9_witness :
    validTitle "HGB_1_001_002" = true ∧
    get_filename (some "HGB_1_001_002") (some 7) = some "HGB_1_001_002_007.jpg" ∧
    get_doc_title "HGB_1_001_002_007.jpg" = some "HGB_1_001_002" ∧
    get_page_nr "HGB_1_001_002_007.jpg" = some 7 := by
  have h := C9_roundtrip "HGB_1_001_002" 7 (by decide) (by decide) (by decide)
  have e : ("HGB_1_001_002" ++ "_" ++ pad3 7 ++ ".jpg" : String) =
      "HGB_1_001_002_007.jpg" := by decide
  rw [e] at h
  exact ⟨by decide, h.1, h.2.1, h.2.2⟩
